import Mathlib

/-!
Shallow embedding of the `neoverify` document-verification service
(`verification/models.py`, `verification/tasks.py`,
`verification/ml_models/forgery_detector.py`) and proofs about it.

External effects (OpenCV decoding and resizing, the TensorFlow model,
hashing and file storage, the clock) are modelled as an explicit
environment `Env` threaded through the embedded functions.  Python
exceptions are modelled with `Except` / an `escaped` field.  Floats are
modelled as rationals.
-/

/-- The four lifecycle states of `VerificationJob.STATUS_CHOICES`. -/
inductive Status
  | pending
  | processing
  | completed
  | failed
deriving DecidableEq, Repr

/-- The string stored in the `status` column for each state. -/
def Status.text : Status → String
  | .pending => "pending"
  | .processing => "processing"
  | .completed => "completed"
  | .failed => "failed"

/-- JSON-like values, for the `analysis_results` JSONField and response bodies. -/
inductive JVal
  | null
  | bool (b : Bool)
  | num (q : ℚ)
  | str (s : String)
  | obj (fields : List (String × JVal))

/-- Lookup of a key in a JSON object, modelling Python dict access / `in`. -/
def lookupJ (l : List (String × JVal)) (k : String) : Option JVal :=
  (l.find? (fun p => p.1 == k)).map (fun p => p.2)

/-- Extract a string value, if present. -/
def getStr : Option JVal → Option String
  | some (.str s) => some s
  | _ => none

/-- Extract a numeric value, if present. -/
def getNum : Option JVal → Option ℚ
  | some (.num q) => some q
  | _ => none

/-- Extract a boolean value, if present. -/
def getBool : Option JVal → Option Bool
  | some (.bool b) => some b
  | _ => none

/-- Whether a JSON object has a given key. -/
def containsKey (l : List (String × JVal)) (k : String) : Bool :=
  (l.find? (fun p => p.1 == k)).isSome

/-- The Python exceptions that can arise in the embedded code paths. -/
inductive PyErr
  | doesNotExist
  | unboundLocal
  | cvError
  | modelLoadError
deriving DecidableEq, Repr

/-- The text str(e) of the modelled exceptions, as embedded into `analysis_results`. -/
def PyErr.msg : PyErr → String
  | .doesNotExist => "VerificationJob matching query does not exist."
  | .unboundLocal => "local variable job referenced before assignment"
  | .cvError => "OpenCV error: resize of invalid input"
  | .modelLoadError => "unable to load model file models/forgery_detection_model.h5"

/-- A decoded image as produced by `cv2.imread`: dimensions plus a pixel
function giving the value of channel `ch` at row `r`, column `c`
(uint8 values, so well-formed images have all values `≤ 255`). -/
structure Image where
  height : Nat
  width : Nat
  pix : Nat → Nat → Nat → Nat

/-- A rank-4 numpy array, as produced by `np.expand_dims(image/255.0, axis=0)`. -/
structure Tensor4 where
  dims : Nat × Nat × Nat × Nat
  entry : Nat → Nat → Nat → Nat → ℚ

/-- An uploaded multipart file (the document field of request.FILES). -/
structure UploadedFile where
  name : String
  content : String

/-- One row of the `VerificationJob` table (`verification/models.py`). -/
structure Job where
  id : String
  document_hash : String
  file_path : String
  status : Status
  confidence_score : Option ℚ
  analysis_results : List (String × JVal)
  created_at : Nat
  completed_at : Option Nat

/-- The job table, keyed by the UUID primary key. -/
def DB := String → Option Job

/-- The empty job table. -/
def emptyDB : DB := fun _ => none

/-- Saving a row (`job.save()` / `objects.create`). -/
def dbSet (db : DB) (id : String) (j : Job) : DB :=
  fun x => if x = id then some j else db x

/-- The external world the code runs against.

`imread`, `resizePix` model OpenCV (`cv2.imread` returns `none` on an
unreadable or invalid file; `resizePix img h w r c ch` is the unspecified
interpolated pixel of `cv2.resize(img, (w, h))`).  `loadOk` and `predict`
model the TensorFlow artifact at `models/forgery_detection_model.h5` and
its forward pass (`prediction[0][0]`).  `calculate_hash` and `save_file`
are modelled from the spec: the view methods `self.calculate_hash` and
`self.save_file` are called in `views.py` but their bodies are not in the
source; the spec says only "computes the content hash, stores the file".
`check_font_consistency`, `analyze_pixels` and `detect_compression_artifacts`
are modelled from the spec: the three sub-analysis methods are called by
`get_detailed_analysis` but have no implementation in the source; the spec
calls them unimplemented placeholders with no output contract, so they are
modelled as unspecified total functions of the image path.  `now` models
`timezone.now()`. -/
structure Env where
  imread : String → Option Image
  resizePix : Image → Nat → Nat → Nat → Nat → Nat → Nat
  loadOk : Bool
  predict : Tensor4 → ℚ
  calculate_hash : UploadedFile → String
  save_file : UploadedFile → String
  check_font_consistency : String → JVal
  analyze_pixels : String → JVal
  detect_compression_artifacts : String → JVal
  now : Nat

/-- Model of cv2.resize: an image of the requested dimensions
whose pixels are given by the environment's interpolation oracle. -/
def cvResize (env : Env) (img : Image) (h w : Nat) : Image :=
  { height := h, width := w, pix := fun r c ch => env.resizePix img h w r c ch }

/-- The source literal `0.5`, given in reduced form so that the kernel
can evaluate comparisons against it. -/
def threshold : ℚ := Rat.mk' 1 2 (by decide) (Nat.coprime_one_left 2)

theorem threshold_eq : threshold = 1/2 := by
  rw [threshold, Rat.mk'_eq_divInt, Rat.divInt_eq_div]
  norm_num

namespace ForgeryDetector

/-- Method load_model of ForgeryDetector: loads the artifact from its fixed path,
propagating a failure when the file is missing or corrupt. -/
def load_model (env : Env) : Except PyErr Unit :=
  if env.loadOk then .ok () else .error .modelLoadError

/-- The preprocessed tensor of a decoded image: resize to 224×224,
divide by 255.0, and np.expand_dims along axis 0. -/
def tensorOf (env : Env) (image : Image) : Tensor4 :=
  { dims := (1, 224, 224, 3),
    entry := fun _b i j c => ((cvResize env image 224 224).pix i j c : ℚ) / 255 }

/-- Method preprocess_image of ForgeryDetector: `cv2.imread`, then resize to
224×224, divide by 255.0, and `np.expand_dims(·, axis=0)`.  When `imread`
fails it returns `None` and the subsequent `cv2.resize` raises. -/
def preprocess_image (env : Env) (image_path : String) : Except PyErr Tensor4 :=
  match env.imread image_path with
  | none => .error .cvError
  | some image => .ok (tensorOf env image)

/-- The dictionary returned by `ForgeryDetector.detect_forgery`. -/
structure DetectResult where
  is_authentic : Bool
  confidence_score : ℚ
  analysis_details : List (String × JVal)

/-- The returned dict of detect_forgery (keys is_authentic,
confidence_score and analysis_details) viewed as a JSON object. -/
def DetectResult.toJsonObj (r : DetectResult) : List (String × JVal) :=
  [("is_authentic", .bool r.is_authentic),
   ("confidence_score", .num r.confidence_score),
   ("analysis_details", .obj r.analysis_details)]

/-- Method get_detailed_analysis of ForgeryDetector: the dict of the three
sub-analyses.  The three called methods are modelled from the spec as
placeholder oracles (see `Env`). -/
def get_detailed_analysis (env : Env) (image_path : String) : List (String × JVal) :=
  [("font_consistency", env.check_font_consistency image_path),
   ("pixel_analysis", env.analyze_pixels image_path),
   ("compression_artifacts", env.detect_compression_artifacts image_path)]

/-- Method detect_forgery of ForgeryDetector: preprocess, run the model,
threshold at 0.5, and aggregate the detailed analysis. -/
def detect_forgery (env : Env) (image_path : String) : Except PyErr DetectResult :=
  match preprocess_image env image_path with
  | .error e => .error e
  | .ok processed_image =>
      let confidence : ℚ := env.predict processed_image
      let is_authentic : Bool := decide (threshold < confidence)
      .ok { is_authentic := is_authentic,
            confidence_score := confidence,
            analysis_details := get_detailed_analysis env image_path }

end ForgeryDetector

/-- An HTTP response: status code and JSON body. -/
structure HttpResponse where
  status : Nat
  body : List (String × JVal)

/-- The row created by the upload view: hash and stored path of the
uploaded file, pending status, empty results, creation time now. -/
def pendingRow (env : Env) (uploaded_file : UploadedFile) (freshId : String) : Job :=
  { id := freshId,
    document_hash := env.calculate_hash uploaded_file,
    file_path := env.save_file uploaded_file,
    status := .pending,
    confidence_score := none,
    analysis_results := [],
    created_at := env.now,
    completed_at := none }

namespace DocumentVerificationView

/-- Method post of DocumentVerificationView: reject a missing upload with 400,
otherwise hash and store the file, create a pending job row, enqueue its
id, and answer with the id and status.  Returns the response, the updated
table and the updated queue. -/
def post (env : Env) (db : DB) (queue : List String)
    (document : Option UploadedFile) (freshId : String) :
    HttpResponse × DB × List String :=
  match document with
  | none =>
      ({ status := 400, body := [("error", .str "No document provided")] }, db, queue)
  | some uploaded_file =>
      ({ status := 200,
         body := [("verification_id", .str freshId),
                  ("status", .str (pendingRow env uploaded_file freshId).status.text)] },
       dbSet db freshId (pendingRow env uploaded_file freshId),
       queue ++ [freshId])

/-- Method get of DocumentVerificationView: look the job up and report it, or
answer 404 when `VerificationJob.DoesNotExist` is raised.  Returns the
response together with the (unchanged) table. -/
def get (db : DB) (verification_id : String) : HttpResponse × DB :=
  match db verification_id with
  | some job =>
      ({ status := 200,
         body := [("verification_id", .str job.id),
                  ("status", .str job.status.text),
                  ("confidence_score",
                    match job.confidence_score with
                    | some c => .num c
                    | none => .null),
                  ("analysis_results", .obj job.analysis_results)] }, db)
  | none =>
      ({ status := 404, body := [("error", .str "Verification job not found")] }, db)

end DocumentVerificationView

/-- The outcome of one execution of the worker task: the job table after
the run, the exception escaping the task (if any), and the number of
model-load attempts performed during the run. -/
structure RunOut where
  db : DB
  escaped : Option PyErr
  loads : Nat

/-- The in-memory job after the line job.status = processing of the
worker (all other columns untouched). -/
def processingRow (j : Job) : Job := { j with status := .processing }

/-- The in-memory job after the except handler ran on exception e:
status failed and the error message under the error key of
analysis_results; every other column keeps its in-memory value. -/
def failedRow (j : Job) (e : PyErr) : Job :=
  { j with
    status := .failed,
    analysis_results := [("error", .str e.msg)] }

/-- The in-memory job after the success path of the worker: score column,
full results dict, completed status and completion time t. -/
def completedRow (j : Job) (r : ForgeryDetector.DetectResult) (t : Nat) : Job :=
  { j with
    confidence_score := some r.confidence_score,
    analysis_results := r.toJsonObj,
    status := .completed,
    completed_at := some t }

/-- The celery task process_document_verification of `verification/tasks.py`.

The try block looks the job up, saves it as processing, constructs a
ForgeryDetector (which loads the model), runs detect_forgery, and on
success saves score, full results dict, completed status and completion
time.  The except handler writes status failed and the error message into
analysis_results — but it refers to the local variable job, which is
unbound when the lookup itself raised, in which case an UnboundLocalError
escapes the task. -/
def process_document_verification (env : Env) (db : DB) (job_id : String) : RunOut :=
  match db job_id with
  | none =>
      { db := db, escaped := some .unboundLocal, loads := 0 }
  | some job0 =>
      match ForgeryDetector.load_model env with
      | .error e =>
          { db := dbSet (dbSet db job_id (processingRow job0)) job_id
              (failedRow (processingRow job0) e),
            escaped := none, loads := 1 }
      | .ok _ =>
          match ForgeryDetector.detect_forgery env (processingRow job0).file_path with
          | .error e =>
              { db := dbSet (dbSet db job_id (processingRow job0)) job_id
                  (failedRow (processingRow job0) e),
                escaped := none, loads := 1 }
          | .ok results =>
              { db := dbSet (dbSet db job_id (processingRow job0)) job_id
                  (completedRow (processingRow job0) results env.now),
                escaped := none, loads := 1 }

/-!
## System executions

An execution of the service is a sequence of events: an upload request,
a status query, or one run of the worker task on some job id.  Each
worker event carries its own view of the external world, since the world
(files on disk, the model artifact) can change between runs.  A `post`
event carries the UUID generated for the new row; UUID collisions are
modelled as impossible (a colliding `post` leaves the table unchanged).
-/

/-- One externally triggered step of the system. -/
inductive Event
  | post (env : Env) (doc : Option UploadedFile) (freshId : String)
  | getReq (id : String)
  | work (env : Env) (id : String)

/-- The job table after an event. -/
def applyEvent (db : DB) : Event → DB
  | .post env doc freshId =>
      if (db freshId).isSome then db
      else (DocumentVerificationView.post env db [] doc freshId).2.1
  | .getReq id => (DocumentVerificationView.get db id).2
  | .work env id => (process_document_verification env db id).db

/-- Running a trace of events from a given table. -/
def runFrom (db : DB) : List Event → DB
  | [] => db
  | e :: rest => runFrom (applyEvent db e) rest

/-- Running a trace from the empty table. -/
def runTrace (t : List Event) : DB := runFrom emptyDB t

/-- The job-table states visible after each `save()` issued by one worker
run: the save of the `processing` status, then the final save (success or
failure handler).  A run that crashes on the lookup issues no save. -/
def workStates (env : Env) (db : DB) (id : String) : List DB :=
  match db id with
  | none => []
  | some job0 =>
      [dbSet db id (processingRow job0),
       (process_document_verification env db id).db]

/-- The table states written by one event (save granularity). -/
def eventStates (db : DB) : Event → List DB
  | .post env doc freshId => [applyEvent db (.post env doc freshId)]
  | .getReq id => [applyEvent db (.getReq id)]
  | .work env id => workStates env db id

/-- All table states a trace writes, in order, at save granularity. -/
def statesFrom (db : DB) : List Event → List DB
  | [] => []
  | e :: rest => eventStates db e ++ statesFrom (applyEvent db e) rest

/-- The full sequence of observable table states of a trace, starting
from the empty table. -/
def dbStates (t : List Event) : List DB := emptyDB :: statesFrom emptyDB t

/-- How many worker runs a trace performs on a given job id. -/
def workCount (t : List Event) (id : String) : Nat :=
  t.countP (fun e => match e with | .work _ i => i == id | _ => false)

/-- Each job id is handed to the worker at most once (single delivery). -/
def atMostOnce (t : List Event) : Prop := ∀ id, workCount t id ≤ 1

/-- Total number of model-load attempts a trace performs (the process's
load count). -/
def loadsFrom (db : DB) : List Event → Nat
  | [] => 0
  | e :: rest =>
      (match e with
       | .work env id => (process_document_verification env db id).loads
       | _ => 0) + loadsFrom (applyEvent db e) rest

/-- Model-load count of a whole trace run from the empty table. -/
def totalLoads (t : List Event) : Nat := loadsFrom emptyDB t

/-!
## Concrete instances used to evaluate the embedding
-/

/-- A tiny concrete decodable image. -/
def imgW : Image := { height := 2, width := 2, pix := fun _ _ _ => 100 }

/-- A concrete uploaded file. -/
def fileW : UploadedFile := { name := "doc.jpg", content := "jpegbytes" }

/-- The rational 7/10 in reduced form (a kernel-evaluable model score). -/
def score7 : ℚ := Rat.mk' 7 10 (by decide) (by norm_num)

theorem score7_eq : score7 = 7/10 := by
  rw [score7, Rat.mk'_eq_divInt, Rat.divInt_eq_div]
  norm_num

/-- A healthy world: the file decodes, the model loads, and the forward
pass answers 0.7. -/
def envW : Env :=
  { imread := fun _ => some imgW,
    resizePix := fun _ _ _ _ _ _ => 100,
    loadOk := true,
    predict := fun _ => score7,
    calculate_hash := fun _ => "deadbeef",
    save_file := fun _ => "uploads/doc.jpg",
    check_font_consistency := fun _ => .str "consistent",
    analyze_pixels := fun _ => .str "clean",
    detect_compression_artifacts := fun _ => .str "none",
    now := 5 }

/-- Same world, but the model artifact fails to load. -/
def envLoadFail : Env := { envW with loadOk := false }

/-- Same world, but the image file is unreadable. -/
def envNoRead : Env := { envW with imread := fun _ => none }

/-!
## Basic lemmas about the table
-/

theorem dbSet_self (db : DB) (id : String) (j : Job) : dbSet db id j id = some j := by
  simp [dbSet]

theorem dbSet_ne (db : DB) (id x : String) (j : Job) (h : x ≠ id) :
    dbSet db id j x = db x := by
  simp [dbSet, h]

theorem get_leaves_db (db : DB) (verification_id : String) :
    (DocumentVerificationView.get db verification_id).2 = db := by
  unfold DocumentVerificationView.get
  cases db verification_id <;> rfl

/-!
## C5: the authenticity threshold
-/

/-- C5: whenever detect_forgery succeeds, the returned is_authentic flag
is true exactly when the returned confidence score is strictly greater
than 0.5, and a score of exactly 0.5 yields not authentic. -/
theorem C5_authentic_iff_above_half (env : Env) (path : String)
    (r : ForgeryDetector.DetectResult)
    (h : ForgeryDetector.detect_forgery env path = .ok r) :
    (r.is_authentic = true ↔ 1/2 < r.confidence_score) ∧
    (r.confidence_score = 1/2 → r.is_authentic = false) := by
  unfold ForgeryDetector.detect_forgery at h
  cases hp : ForgeryDetector.preprocess_image env path with
  | error e => rw [hp] at h; cases h
  | ok t =>
      rw [hp] at h
      injection h with h
      subst h
      constructor
      · simp [threshold_eq]
      · intro hc
        have hc2 : env.predict t = 1/2 := hc
        simp [threshold_eq, hc2]

/-- C5 witness: the healthy world scores 0.7, which is authentic. -/
def rW : ForgeryDetector.DetectResult :=
  { is_authentic := true,
    confidence_score := score7,
    analysis_details := ForgeryDetector.get_detailed_analysis envW "uploads/doc.jpg" }

/-- C5 instantiated at the healthy world. -/
theorem C5_witness :
    (rW.is_authentic = true ↔ 1/2 < rW.confidence_score) ∧
    (rW.confidence_score = 1/2 → rW.is_authentic = false) :=
  C5_authentic_iff_above_half envW "uploads/doc.jpg" rW rfl

/-!
## C6 and C7: the API error paths
-/

/-- C6: a GET on an id with no job row answers 404 with an error body and
leaves the whole job table unchanged. -/
theorem C6_get_unknown_404 (db : DB) (verification_id : String)
    (h : db verification_id = none) :
    (DocumentVerificationView.get db verification_id).1.status = 404 ∧
    getStr (lookupJ (DocumentVerificationView.get db verification_id).1.body "error")
      = some "Verification job not found" ∧
    (DocumentVerificationView.get db verification_id).2 = db := by
  unfold DocumentVerificationView.get
  rw [h]
  exact ⟨rfl, rfl, rfl⟩

/-- C6 instantiated at the empty table. -/
theorem C6_witness :
    (DocumentVerificationView.get emptyDB "nope").1.status = 404 ∧
    getStr (lookupJ (DocumentVerificationView.get emptyDB "nope").1.body "error")
      = some "Verification job not found" ∧
    (DocumentVerificationView.get emptyDB "nope").2 = emptyDB :=
  C6_get_unknown_404 emptyDB "nope" rfl

/-- C7: a POST whose body has no document field answers 400 with an error
body, creates no job row and enqueues nothing. -/
theorem C7_post_missing_document (env : Env) (db : DB) (queue : List String)
    (freshId : String) :
    (DocumentVerificationView.post env db queue none freshId).1.status = 400 ∧
    getStr (lookupJ (DocumentVerificationView.post env db queue none freshId).1.body "error")
      = some "No document provided" ∧
    (DocumentVerificationView.post env db queue none freshId).2.1 = db ∧
    (DocumentVerificationView.post env db queue none freshId).2.2 = queue :=
  ⟨rfl, rfl, rfl, rfl⟩

/-!
## C1: the worker on a failing lookup
-/

/-- C1: the worker run on a job id with no row does not record a failed
job; instead the except handler reads the unbound local variable job and
the resulting UnboundLocalError escapes the task, leaving the table
untouched. -/
theorem C1_lookup_failure_escapes :
    (process_document_verification envW emptyDB "missing").escaped
      = some .unboundLocal ∧
    (process_document_verification envW emptyDB "missing").db = emptyDB :=
  ⟨rfl, rfl⟩

/-!
## C8: preprocessing
-/

/-- C8: on a readable, decodable image whose resized pixels stay in the
uint8 range, preprocess_image yields a tensor of shape 1×224×224×3 with
every entry in the interval 0..1; on an unreadable or invalid file it
fails with the decoding error. -/
theorem C8_preprocess_shape_and_range (env : Env) (path : String) :
    (∀ img, env.imread path = some img →
      (∀ r c ch, env.resizePix img 224 224 r c ch ≤ 255) →
      ∃ t, ForgeryDetector.preprocess_image env path = .ok t ∧
        t.dims = (1, 224, 224, 3) ∧
        ∀ b i j c, 0 ≤ t.entry b i j c ∧ t.entry b i j c ≤ 1) ∧
    (env.imread path = none →
      ForgeryDetector.preprocess_image env path = .error .cvError) := by
  constructor
  · intro img himg hres
    have hpre : ForgeryDetector.preprocess_image env path =
        .ok (ForgeryDetector.tensorOf env img) := by
      unfold ForgeryDetector.preprocess_image
      rw [himg]
    refine ⟨_, hpre, rfl, ?_⟩
    intro b i j c
    constructor
    · show (0 : ℚ) ≤ ((cvResize env img 224 224).pix i j c : ℚ) / 255
      exact div_nonneg (Nat.cast_nonneg _) (by norm_num)
    · show ((cvResize env img 224 224).pix i j c : ℚ) / 255 ≤ 1
      rw [div_le_one (by norm_num)]
      exact_mod_cast hres i j c
  · intro hnone
    unfold ForgeryDetector.preprocess_image
    rw [hnone]

/-- C8 instantiated at a healthy world and at an unreadable file. -/
theorem C8_witness :
    (∃ t, ForgeryDetector.preprocess_image envW "uploads/doc.jpg" = .ok t ∧
      t.dims = (1, 224, 224, 3) ∧
      ∀ b i j c, 0 ≤ t.entry b i j c ∧ t.entry b i j c ≤ 1) ∧
    ForgeryDetector.preprocess_image envNoRead "uploads/doc.jpg" = .error .cvError :=
  ⟨(C8_preprocess_shape_and_range envW "uploads/doc.jpg").1 imgW rfl
      (fun _ _ _ => (by decide : (100 : Nat) ≤ 255)),
   (C8_preprocess_shape_and_range envNoRead "uploads/doc.jpg").2 rfl⟩


/-!
## The three possible outcomes of one worker run
-/

/-- Case analysis of one worker run: the lookup fails and the table is
untouched; or the job is saved as processing and then as failed (keeping
its previous score and timestamp); or it is saved as processing and then
as completed together with the full detection results. -/
theorem processingRow_file_path (j : Job) :
    (processingRow j).file_path = j.file_path := rfl

theorem worker_cases (env : Env) (db : DB) (id : String) :
    (db id = none ∧ (process_document_verification env db id).db = db) ∨
    (∃ j0, db id = some j0 ∧
      ((∃ e : PyErr, (process_document_verification env db id).db =
          dbSet (dbSet db id (processingRow j0)) id (failedRow (processingRow j0) e)) ∨
       (∃ r, ForgeryDetector.detect_forgery env j0.file_path = .ok r ∧
          (process_document_verification env db id).db =
            dbSet (dbSet db id (processingRow j0)) id
              (completedRow (processingRow j0) r env.now)))) := by
  cases hdb : db id with
  | none =>
      left
      refine ⟨rfl, ?_⟩
      unfold process_document_verification
      rw [hdb]
  | some j0 =>
      right
      refine ⟨j0, rfl, ?_⟩
      simp only [process_document_verification, hdb]
      cases hl : ForgeryDetector.load_model env with
      | error e => exact .inl ⟨e, rfl⟩
      | ok u =>
          simp only [processingRow_file_path]
          cases hd : ForgeryDetector.detect_forgery env j0.file_path with
          | error e => exact .inl ⟨e, rfl⟩
          | ok r => exact .inr ⟨r, rfl, rfl⟩

/-!
## C10: completed rows carry the full detection result
-/

theorem toJsonObj_confidence (r : ForgeryDetector.DetectResult) :
    getNum (lookupJ r.toJsonObj "confidence_score") = some r.confidence_score := rfl

theorem toJsonObj_authentic (r : ForgeryDetector.DetectResult) :
    getBool (lookupJ r.toJsonObj "is_authentic") = some r.is_authentic := rfl

/-- A completed row stores the whole detection dict: its score column is
mirrored under the confidence_score key and the is_authentic key is
present. -/
def completedRecord (j : Job) : Prop :=
  j.status = .completed →
    (∃ c, j.confidence_score = some c ∧
      getNum (lookupJ j.analysis_results "confidence_score") = some c) ∧
    (getBool (lookupJ j.analysis_results "is_authentic")).isSome = true

theorem completedRecord_applyEvent (db : DB) (e : Event)
    (h : ∀ id j, db id = some j → completedRecord j) :
    ∀ id j, applyEvent db e id = some j → completedRecord j := by
  cases e with
  | post env doc fid =>
      intro id j hj
      simp only [applyEvent] at hj
      by_cases hs : (db fid).isSome
      · rw [if_pos hs] at hj
        exact h id j hj
      · rw [if_neg hs] at hj
        cases doc with
        | none => exact h id j hj
        | some f =>
            simp only [DocumentVerificationView.post] at hj
            by_cases hid : id = fid
            · subst hid
              rw [dbSet_self] at hj
              injection hj with hj
              subst hj
              intro hc
              simp [pendingRow] at hc
            · rw [dbSet_ne _ _ _ _ hid] at hj
              exact h id j hj
  | getReq i =>
      intro id j hj
      simp only [applyEvent] at hj
      rw [get_leaves_db] at hj
      exact h id j hj
  | work env wid =>
      intro id j hj
      simp only [applyEvent] at hj
      rcases worker_cases env db wid with ⟨hdb, hsame⟩ |
        ⟨j0, hdb, ⟨e, hfail⟩ | ⟨r, hr, hsucc⟩⟩
      · rw [hsame] at hj
        exact h id j hj
      · rw [hfail] at hj
        by_cases hid : id = wid
        · subst hid
          rw [dbSet_self] at hj
          injection hj with hj
          subst hj
          intro hc
          simp [failedRow] at hc
        · rw [dbSet_ne _ _ _ _ hid, dbSet_ne _ _ _ _ hid] at hj
          exact h id j hj
      · rw [hsucc] at hj
        by_cases hid : id = wid
        · subst hid
          rw [dbSet_self] at hj
          injection hj with hj
          subst hj
          intro _
          refine ⟨⟨r.confidence_score, rfl, toJsonObj_confidence r⟩, ?_⟩
          show (getBool (lookupJ r.toJsonObj "is_authentic")).isSome = true
          rw [toJsonObj_authentic]
          rfl
        · rw [dbSet_ne _ _ _ _ hid, dbSet_ne _ _ _ _ hid] at hj
          exact h id j hj

theorem completedRecord_runFrom (t : List Event) (db : DB)
    (h : ∀ id j, db id = some j → completedRecord j) :
    ∀ id j, runFrom db t id = some j → completedRecord j := by
  induction t generalizing db with
  | nil => exact h
  | cons e rest ih => exact ih (applyEvent db e) (completedRecord_applyEvent db e h)

/-- C10: in every reachable table state, a job with status completed
stores the entire detection result in analysis_results — in particular
the is_authentic key is present and the confidence_score key equals the
confidence_score column. -/
theorem C10_completed_record (t : List Event) (id : String) (j : Job)
    (hj : runTrace t id = some j) (hc : j.status = .completed) :
    (∃ c, j.confidence_score = some c ∧
      getNum (lookupJ j.analysis_results "confidence_score") = some c) ∧
    (getBool (lookupJ j.analysis_results "is_authentic")).isSome = true :=
  completedRecord_runFrom t emptyDB (fun _ _ hh => Option.noConfusion hh) id j hj hc

/-- A two-event trace: one upload, one worker run, in the healthy world. -/
def tW : List Event := [.post envW (some fileW) "a", .work envW "a"]

/-- The completed row that tW produces. -/
def jW : Job :=
  { id := "a", document_hash := "deadbeef", file_path := "uploads/doc.jpg",
    status := .completed, confidence_score := some score7,
    analysis_results := rW.toJsonObj,
    created_at := 5, completed_at := some 5 }

/-- C10 instantiated at the healthy two-event trace. -/
theorem C10_witness :
    (∃ c, jW.confidence_score = some c ∧
      getNum (lookupJ jW.analysis_results "confidence_score") = some c) ∧
    (getBool (lookupJ jW.analysis_results "is_authentic")).isSome = true :=
  C10_completed_record tW "a" jW rfl rfl

/-!
## C9: model loading
-/

/-- C9 counterexample: a single process handling two detection tasks
loads the model artifact twice — a fresh ForgeryDetector (and hence a
fresh load) per task — so the load does not happen exactly once per
process. -/
theorem C9_counterexample :
    totalLoads [.post envW (some fileW) "a", .post envW (some fileW) "b",
                .work envW "a", .work envW "b"] = 2 := by decide

/-- C9 (amended): the artifact is loaded exactly once per worker run that
finds its job (never retried within a run), and when loading fails the
failure propagates out of the detector construction and the run records
the job as failed with the load error message. -/
theorem C9_load_per_run (env : Env) (db : DB) (id : String) :
    ((db id).isSome = true → (process_document_verification env db id).loads = 1) ∧
    ((db id).isNone = true → (process_document_verification env db id).loads = 0) ∧
    (env.loadOk = false → ∀ j0, db id = some j0 →
      ∃ jf, (process_document_verification env db id).db id = some jf ∧
        jf.status = .failed ∧
        getStr (lookupJ jf.analysis_results "error") = some PyErr.modelLoadError.msg) := by
  refine ⟨?_, ?_, ?_⟩
  · intro hs
    cases hdb : db id with
    | none => rw [hdb] at hs; cases hs
    | some j0 =>
        simp only [process_document_verification, hdb]
        cases hl : ForgeryDetector.load_model env with
        | error e => rfl
        | ok u =>
            cases hd : ForgeryDetector.detect_forgery env (processingRow j0).file_path with
            | error e => rfl
            | ok r => rfl
  · intro hn
    cases hdb : db id with
    | none => simp only [process_document_verification, hdb]
    | some j0 => rw [hdb] at hn; cases hn
  · intro hb j0 hdb
    have hl : ForgeryDetector.load_model env = .error .modelLoadError := by
      unfold ForgeryDetector.load_model
      rw [hb]
      rfl
    refine ⟨failedRow (processingRow j0) .modelLoadError, ?_, rfl, rfl⟩
    simp only [process_document_verification, hdb, hl]
    rw [dbSet_self]

/-- A concrete pending row. -/
def jobA : Job :=
  { id := "a", document_hash := "deadbeef", file_path := "uploads/doc.jpg",
    status := .pending, confidence_score := none, analysis_results := [],
    created_at := 5, completed_at := none }

/-- C9 instantiated: one load on a present job, none on an absent id, and
a failing load recorded as a failed job. -/
theorem C9_witness :
    (process_document_verification envLoadFail (dbSet emptyDB "a" jobA) "a").loads = 1 ∧
    (process_document_verification envLoadFail emptyDB "b").loads = 0 ∧
    (∃ jf, (process_document_verification envLoadFail (dbSet emptyDB "a" jobA) "a").db "a"
        = some jf ∧
      jf.status = .failed ∧
      getStr (lookupJ jf.analysis_results "error") = some PyErr.modelLoadError.msg) :=
  ⟨(C9_load_per_run envLoadFail (dbSet emptyDB "a" jobA) "a").1 rfl,
   (C9_load_per_run envLoadFail emptyDB "b").2.1 rfl,
   (C9_load_per_run envLoadFail (dbSet emptyDB "a" jobA) "a").2.2 rfl jobA rfl⟩

/-!
## C3: score and timestamp population
-/

/-- C3 counterexample: with repeated delivery, a completed job can be
re-processed; when the second run fails, the job ends failed while
keeping its score and completion timestamp. -/
theorem C3_counterexample :
    ((runTrace [.post envW (some fileW) "a", .work envW "a", .work envLoadFail "a"] "a").map
      (fun j => (j.status, j.confidence_score.isSome, j.completed_at.isSome)))
      = some (.failed, true, true) := by decide

/-- Score and completion timestamp are populated exactly on completion. -/
def scoreIffCompleted (j : Job) : Prop :=
  (j.status = .completed → j.confidence_score.isSome = true ∧ j.completed_at.isSome = true) ∧
  (j.status ≠ .completed → j.confidence_score = none ∧ j.completed_at = none)

/-- A row the worker has not touched yet: as created by the upload view. -/
def untouchedRow (j : Job) : Prop :=
  j.status = .pending ∧ j.confidence_score = none ∧ j.completed_at = none

/-- Induction invariant for single-delivery traces: every row satisfies
scoreIffCompleted, and rows whose worker run is still ahead are untouched. -/
def InvC3 (db : DB) (rest : List Event) : Prop :=
  (∀ id j, db id = some j → scoreIffCompleted j) ∧
  (∀ id j, 0 < workCount rest id → db id = some j → untouchedRow j)

theorem workCount_cons_work (env : Env) (i : String) (t : List Event) (id : String) :
    workCount (Event.work env i :: t) id = workCount t id + (if i == id then 1 else 0) := by
  unfold workCount
  rw [List.countP_cons]

theorem workCount_cons_post (env : Env) (doc : Option UploadedFile) (fid : String)
    (t : List Event) (id : String) :
    workCount (Event.post env doc fid :: t) id = workCount t id := by
  unfold workCount
  rw [List.countP_cons]
  simp

theorem workCount_cons_get (i : String) (t : List Event) (id : String) :
    workCount (Event.getReq i :: t) id = workCount t id := by
  unfold workCount
  rw [List.countP_cons]
  simp

theorem workCount_le_cons (e : Event) (t : List Event) (id : String) :
    workCount t id ≤ workCount (e :: t) id := by
  unfold workCount
  rw [List.countP_cons]
  exact Nat.le_add_right _ _

theorem invC3_step (db : DB) (e : Event) (rest : List Event)
    (hmax : atMostOnce (e :: rest)) (hinv : InvC3 db (e :: rest)) :
    InvC3 (applyEvent db e) rest := by
  obtain ⟨h1, h2⟩ := hinv
  cases e with
  | post env doc fid =>
      constructor
      · intro id j hj
        simp only [applyEvent] at hj
        by_cases hs : (db fid).isSome
        · rw [if_pos hs] at hj
          exact h1 id j hj
        · rw [if_neg hs] at hj
          cases doc with
          | none => exact h1 id j hj
          | some f =>
              simp only [DocumentVerificationView.post] at hj
              by_cases hid : id = fid
              · subst hid
                rw [dbSet_self] at hj
                injection hj with hj
                subst hj
                exact ⟨fun hc => by simp [pendingRow] at hc, fun _ => ⟨rfl, rfl⟩⟩
              · rw [dbSet_ne _ _ _ _ hid] at hj
                exact h1 id j hj
      · intro id j hw hj
        have hw2 : 0 < workCount (Event.post env doc fid :: rest) id := by
          rw [workCount_cons_post]
          exact hw
        simp only [applyEvent] at hj
        by_cases hs : (db fid).isSome
        · rw [if_pos hs] at hj
          exact h2 id j hw2 hj
        · rw [if_neg hs] at hj
          cases doc with
          | none => exact h2 id j hw2 hj
          | some f =>
              simp only [DocumentVerificationView.post] at hj
              by_cases hid : id = fid
              · subst hid
                rw [dbSet_self] at hj
                injection hj with hj
                subst hj
                exact ⟨rfl, rfl, rfl⟩
              · rw [dbSet_ne _ _ _ _ hid] at hj
                exact h2 id j hw2 hj
  | getReq i =>
      constructor
      · intro id j hj
        simp only [applyEvent] at hj
        rw [get_leaves_db] at hj
        exact h1 id j hj
      · intro id j hw hj
        simp only [applyEvent] at hj
        rw [get_leaves_db] at hj
        refine h2 id j ?_ hj
        rw [workCount_cons_get]
        exact hw
  | work env wid =>
      have hwid : 0 < workCount (Event.work env wid :: rest) wid := by
        rw [workCount_cons_work]
        simp
      constructor
      · intro id j hj
        simp only [applyEvent] at hj
        rcases worker_cases env db wid with ⟨hdb, hsame⟩ |
          ⟨j0, hdb, ⟨e2, hfail⟩ | ⟨r, hr, hsucc⟩⟩
        · rw [hsame] at hj
          exact h1 id j hj
        · rw [hfail] at hj
          by_cases hid : id = wid
          · subst hid
            rw [dbSet_self] at hj
            injection hj with hj
            subst hj
            have hu := h2 id j0 hwid hdb
            exact ⟨fun hc => by simp [failedRow, processingRow] at hc,
                   fun _ => ⟨hu.2.1, hu.2.2⟩⟩
          · rw [dbSet_ne _ _ _ _ hid, dbSet_ne _ _ _ _ hid] at hj
            exact h1 id j hj
        · rw [hsucc] at hj
          by_cases hid : id = wid
          · subst hid
            rw [dbSet_self] at hj
            injection hj with hj
            subst hj
            exact ⟨fun _ => ⟨rfl, rfl⟩, fun hn => absurd rfl hn⟩
          · rw [dbSet_ne _ _ _ _ hid, dbSet_ne _ _ _ _ hid] at hj
            exact h1 id j hj
      · intro id j hw hj
        simp only [applyEvent] at hj
        by_cases hid : id = wid
        · subst hid
          exfalso
          have hcount := hmax id
          rw [workCount_cons_work] at hcount
          simp at hcount
          omega
        · have hw2 : 0 < workCount (Event.work env wid :: rest) id := by
            rw [workCount_cons_work]
            exact Nat.lt_of_lt_of_le hw (Nat.le_add_right _ _)
          rcases worker_cases env db wid with ⟨hdb, hsame⟩ |
            ⟨j0, hdb, ⟨e2, hfail⟩ | ⟨r, hr, hsucc⟩⟩
          · rw [hsame] at hj
            exact h2 id j hw2 hj
          · rw [hfail] at hj
            rw [dbSet_ne _ _ _ _ hid, dbSet_ne _ _ _ _ hid] at hj
            exact h2 id j hw2 hj
          · rw [hsucc] at hj
            rw [dbSet_ne _ _ _ _ hid, dbSet_ne _ _ _ _ hid] at hj
            exact h2 id j hw2 hj

theorem invC3_run (t : List Event) (db : DB)
    (hmax : atMostOnce t) (hinv : InvC3 db t) :
    ∀ id j, runFrom db t id = some j → scoreIffCompleted j := by
  induction t generalizing db with
  | nil => exact hinv.1
  | cons e rest ih =>
      have hmax2 : atMostOnce rest := fun id =>
        Nat.le_trans (workCount_le_cons e rest id) (hmax id)
      exact ih (applyEvent db e) hmax2 (invC3_step db e rest hmax hinv)

/-- C3 (amended): in every state reachable by a trace in which each job
id is handed to the worker at most once, confidence_score and
completed_at are populated iff the status is completed; in particular a
job that ends failed has both null. -/
theorem C3_score_iff_completed (t : List Event) (id : String) (j : Job)
    (hmax : atMostOnce t) (hj : runTrace t id = some j) :
    (j.status = .completed → j.confidence_score.isSome = true ∧ j.completed_at.isSome = true) ∧
    (j.status ≠ .completed → j.confidence_score = none ∧ j.completed_at = none) ∧
    (j.status = .failed → j.confidence_score = none ∧ j.completed_at = none) := by
  have hs := invC3_run t emptyDB hmax
    ⟨fun _ _ hh => Option.noConfusion hh, fun _ _ _ hh => Option.noConfusion hh⟩ id j hj
  exact ⟨hs.1, hs.2, fun hf => hs.2 (fun hc => by rw [hf] at hc; cases hc)⟩

theorem tW_atMostOnce : atMostOnce tW := by
  intro id
  show workCount (Event.post envW (some fileW) "a" :: [Event.work envW "a"]) id ≤ 1
  rw [workCount_cons_post, workCount_cons_work]
  have h0 : workCount ([] : List Event) id = 0 := rfl
  rw [h0]
  cases h : ("a" == id) <;> simp

/-- C3 instantiated at the healthy single-delivery trace. -/
theorem C3_witness :
    (jW.status = .completed → jW.confidence_score.isSome = true ∧ jW.completed_at.isSome = true) ∧
    (jW.status ≠ .completed → jW.confidence_score = none ∧ jW.completed_at = none) ∧
    (jW.status = .failed → jW.confidence_score = none ∧ jW.completed_at = none) :=
  C3_score_iff_completed tW "a" jW tW_atMostOnce rfl

/-!
## C4: forward-only status transitions
-/

/-- The forward steps of the per-job state machine: stay put, or
pending to processing, or processing to a terminal state. -/
def stepOK (s s2 : Status) : Prop :=
  s2 = s ∨ (s = .pending ∧ s2 = .processing) ∨
    (s = .processing ∧ (s2 = .completed ∨ s2 = .failed))

/-- Adjacent stored table states respect the state machine: every row
steps forward, and a row can only appear with status pending. -/
def forwardStep (d d2 : DB) : Prop :=
  ∀ id, (∀ j j2, d id = some j → d2 id = some j2 → stepOK j.status j2.status) ∧
    (∀ j2, d id = none → d2 id = some j2 → j2.status = .pending)

theorem forwardStep_refl (db : DB) : forwardStep db db := by
  intro id
  constructor
  · intro j j2 h1 h2
    rw [h1] at h2
    injection h2 with h2
    subst h2
    exact Or.inl rfl
  · intro j2 hn h2
    rw [hn] at h2
    cases h2

theorem forwardStep_post (db : DB) (env : Env) (doc : Option UploadedFile) (fid : String) :
    forwardStep db (applyEvent db (.post env doc fid)) := by
  simp only [applyEvent]
  by_cases hs : (db fid).isSome
  · rw [if_pos hs]
    exact forwardStep_refl db
  · rw [if_neg hs]
    cases doc with
    | none => exact forwardStep_refl db
    | some f =>
        simp only [DocumentVerificationView.post]
        intro id
        constructor
        · intro j j2 h1 h2
          by_cases hid : id = fid
          · subst hid
            exact absurd (by rw [h1]; rfl) hs
          · rw [dbSet_ne _ _ _ _ hid] at h2
            rw [h1] at h2
            injection h2 with h2
            subst h2
            exact Or.inl rfl
        · intro j2 hn h2
          by_cases hid : id = fid
          · subst hid
            rw [dbSet_self] at h2
            injection h2 with h2
            subst h2
            rfl
          · rw [dbSet_ne _ _ _ _ hid] at h2
            rw [hn] at h2
            cases h2

theorem forwardStep_processing (db : DB) (wid : String) (j0 : Job)
    (hdb : db wid = some j0) (hpend : j0.status = .pending) :
    forwardStep db (dbSet db wid (processingRow j0)) := by
  intro id
  constructor
  · intro j j2 h1 h2
    by_cases hid : id = wid
    · subst hid
      rw [dbSet_self] at h2
      injection h2 with h2
      subst h2
      rw [hdb] at h1
      injection h1 with h1
      subst h1
      exact Or.inr (Or.inl ⟨hpend, rfl⟩)
    · rw [dbSet_ne _ _ _ _ hid] at h2
      rw [h1] at h2
      injection h2 with h2
      subst h2
      exact Or.inl rfl
  · intro j2 hn h2
    by_cases hid : id = wid
    · subst hid
      rw [hn] at hdb
      cases hdb
    · rw [dbSet_ne _ _ _ _ hid] at h2
      rw [hn] at h2
      cases h2

theorem forwardStep_second (db : DB) (wid : String) (j0 jX : Job)
    (hx : jX.status = .completed ∨ jX.status = .failed) :
    forwardStep (dbSet db wid (processingRow j0))
      (dbSet (dbSet db wid (processingRow j0)) wid jX) := by
  intro id
  constructor
  · intro j j2 h1 h2
    by_cases hid : id = wid
    · subst hid
      rw [dbSet_self] at h1 h2
      injection h1 with h1
      injection h2 with h2
      subst h1
      subst h2
      exact Or.inr (Or.inr ⟨rfl, hx⟩)
    · rw [dbSet_ne _ _ _ _ hid] at h2
      rw [h1] at h2
      injection h2 with h2
      subst h2
      exact Or.inl rfl
  · intro j2 hn h2
    by_cases hid : id = wid
    · subst hid
      rw [dbSet_self] at hn
      cases hn
    · rw [dbSet_ne _ _ _ _ hid] at h2
      rw [hn] at h2
      cases h2

theorem worker_db_none (env : Env) (db : DB) (wid : String) (h : db wid = none) :
    (process_document_verification env db wid).db = db := by
  unfold process_document_verification
  rw [h]

theorem chain_statesFrom (t : List Event) (db : DB)
    (hmax : atMostOnce t) (hinv : InvC3 db t) :
    List.Chain' forwardStep (db :: statesFrom db t) := by
  induction t generalizing db with
  | nil => exact List.chain'_singleton db
  | cons e rest ih =>
      have hmax2 : atMostOnce rest := fun id =>
        Nat.le_trans (workCount_le_cons e rest id) (hmax id)
      have hinv2 := invC3_step db e rest hmax hinv
      cases e with
      | post env doc fid =>
          show List.Chain' forwardStep
            (db :: (applyEvent db (.post env doc fid) ::
              statesFrom (applyEvent db (.post env doc fid)) rest))
          rw [List.chain'_cons]
          exact ⟨forwardStep_post db env doc fid,
                 ih (applyEvent db (.post env doc fid)) hmax2 hinv2⟩
      | getReq i =>
          show List.Chain' forwardStep
            (db :: (applyEvent db (.getReq i) :: statesFrom (applyEvent db (.getReq i)) rest))
          rw [List.chain'_cons]
          refine ⟨?_, ih (applyEvent db (.getReq i)) hmax2 hinv2⟩
          have happ : applyEvent db (.getReq i) = db := by
            simp only [applyEvent]
            exact get_leaves_db db i
          rw [happ]
          exact forwardStep_refl db
      | work env wid =>
          cases hdb : db wid with
          | none =>
              have happ : applyEvent db (.work env wid) = db := by
                simp only [applyEvent]
                exact worker_db_none env db wid hdb
              show List.Chain' forwardStep
                (db :: (workStates env db wid ++
                  statesFrom (applyEvent db (.work env wid)) rest))
              rw [show workStates env db wid = [] from by simp only [workStates, hdb], happ]
              exact ih db hmax2 (happ ▸ hinv2)
          | some j0 =>
              have hwid : 0 < workCount (Event.work env wid :: rest) wid := by
                rw [workCount_cons_work]
                simp
              have hpend : j0.status = .pending := (hinv.2 wid j0 hwid hdb).1
              have hws : workStates env db wid =
                  [dbSet db wid (processingRow j0),
                   (process_document_verification env db wid).db] := by
                simp only [workStates, hdb]
              have hinv2b : InvC3 ((process_document_verification env db wid).db) rest := hinv2
              show List.Chain' forwardStep
                (db :: (workStates env db wid ++
                  statesFrom (applyEvent db (.work env wid)) rest))
              rw [hws]
              rcases worker_cases env db wid with ⟨hdb2, hsame2⟩ | ⟨j0b, hdb2, hcase⟩
              · rw [hdb] at hdb2
                cases hdb2
              · rw [hdb] at hdb2
                injection hdb2 with hdb2
                subst hdb2
                rcases hcase with ⟨e2, hF⟩ | ⟨r, hr, hF⟩
                · rw [show applyEvent db (.work env wid)
                      = (process_document_verification env db wid).db from rfl, hF]
                  simp only [List.cons_append, List.nil_append]
                  rw [List.chain'_cons, List.chain'_cons]
                  exact ⟨forwardStep_processing db wid j0 hdb hpend,
                         forwardStep_second db wid j0 _ (Or.inr rfl),
                         ih _ hmax2 (hF ▸ hinv2b)⟩
                · rw [show applyEvent db (.work env wid)
                      = (process_document_verification env db wid).db from rfl, hF]
                  simp only [List.cons_append, List.nil_append]
                  rw [List.chain'_cons, List.chain'_cons]
                  exact ⟨forwardStep_processing db wid j0 hdb hpend,
                         forwardStep_second db wid j0 _ (Or.inl rfl),
                         ih _ hmax2 (hF ▸ hinv2b)⟩

/-- C4 (amended): along every single-delivery execution, at save
granularity, every row only ever steps forward along
pending → processing → (completed or failed), and a row can only appear
with status pending. -/
theorem C4_forward_transitions (t : List Event) (hmax : atMostOnce t) :
    List.Chain' forwardStep (dbStates t) :=
  chain_statesFrom t emptyDB hmax
    ⟨fun _ _ hh => Option.noConfusion hh, fun _ _ _ hh => Option.noConfusion hh⟩

/-- C4 counterexample: re-delivering a completed job moves its status
backward from completed to processing between adjacent saved states,
which is not a forward step. -/
theorem C4_counterexample :
    ((dbStates [.post envW (some fileW) "a", .work envW "a", .work envW "a"]).map
      (fun d => (d "a").map Job.status))
      = [none, some .pending, some .processing, some .completed,
         some .processing, some .completed] ∧
    ¬ stepOK .completed .processing := by
  constructor
  · decide
  · intro h
    rcases h with h | ⟨h, _⟩ | ⟨h, _⟩ <;> cases h

/-- C4 instantiated at the healthy single-delivery trace. -/
theorem C4_witness : List.Chain' forwardStep (dbStates tW) :=
  C4_forward_transitions tW tW_atMostOnce

/-!
## C2: the happy path
-/

/-- The value under key k of a response body, when it is a JSON object. -/
def bodyObj (resp : HttpResponse) (k : String) : List (String × JVal) :=
  match lookupJ resp.body k with
  | some (.obj l) => l
  | _ => []

/-- The object under key k2 of the object under key k of a body. -/
def subObj (resp : HttpResponse) (k k2 : String) : List (String × JVal) :=
  match lookupJ (bodyObj resp k) k2 with
  | some (.obj l) => l
  | _ => []

/-- The response a client sees after uploading file f (job id freshId),
letting the worker run once, and then querying the job, all in world env. -/
def uploadProcessGet (env : Env) (db : DB) (queue : List String)
    (f : UploadedFile) (freshId : String) : HttpResponse :=
  (DocumentVerificationView.get
    (process_document_verification env
      (DocumentVerificationView.post env db queue (some f) freshId).2.1 freshId).db
    freshId).1

/-- The detection result for a decodable image. -/
def detectOf (env : Env) (path : String) (img : Image) : ForgeryDetector.DetectResult :=
  { is_authentic := decide (threshold < env.predict (ForgeryDetector.tensorOf env img)),
    confidence_score := env.predict (ForgeryDetector.tensorOf env img),
    analysis_details := ForgeryDetector.get_detailed_analysis env path }

theorem detect_ok (env : Env) (path : String) (img : Image)
    (himg : env.imread path = some img) :
    ForgeryDetector.detect_forgery env path = .ok (detectOf env path img) := by
  have hp : ForgeryDetector.preprocess_image env path =
      .ok (ForgeryDetector.tensorOf env img) := by
    unfold ForgeryDetector.preprocess_image
    rw [himg]
  unfold ForgeryDetector.detect_forgery
  rw [hp]
  rfl

theorem worker_success (env : Env) (db : DB) (id : String) (j0 : Job) (img : Image)
    (hdb : db id = some j0)
    (himg : env.imread j0.file_path = some img)
    (hload : env.loadOk = true) :
    (process_document_verification env db id).db =
      dbSet (dbSet db id (processingRow j0)) id
        (completedRow (processingRow j0) (detectOf env j0.file_path img) env.now) := by
  have hl : ForgeryDetector.load_model env = .ok () := by
    unfold ForgeryDetector.load_model
    rw [hload]
    rfl
  simp only [process_document_verification, hdb, hl]
  simp only [processingRow_file_path]
  rw [detect_ok env j0.file_path img himg]

/-- C2 counterexample: after a successful run on a decodable upload the
job completes, but the three analysis keys are not keys of the
analysis_results mapping itself: they sit one level down, inside its
analysis_details entry. -/
theorem C2_counterexample :
    getStr (lookupJ (uploadProcessGet envW emptyDB [] fileW "a").body "status")
      = some "completed" ∧
    containsKey (bodyObj (uploadProcessGet envW emptyDB [] fileW "a") "analysis_results")
      "font_consistency" = false ∧
    containsKey (bodyObj (uploadProcessGet envW emptyDB [] fileW "a") "analysis_results")
      "analysis_details" = true := by
  refine ⟨?_, ?_, ?_⟩ <;> decide

/-- C2 (amended): upload a decodable image in a world where the model
loads and predicts scores in the unit interval; after the worker runs,
the GET answers 200 with status completed, a confidence score in the
unit interval, and an analysis_results object whose analysis_details
entry carries the three analysis keys. -/
theorem C2_completed_response (env : Env) (db : DB) (queue : List String)
    (f : UploadedFile) (freshId : String) (img : Image)
    (himg : env.imread (env.save_file f) = some img)
    (hload : env.loadOk = true)
    (hpred : ∀ t2, 0 ≤ env.predict t2 ∧ env.predict t2 ≤ 1) :
    (uploadProcessGet env db queue f freshId).status = 200 ∧
    getStr (lookupJ (uploadProcessGet env db queue f freshId).body "status")
      = some "completed" ∧
    (∃ c, getNum (lookupJ (uploadProcessGet env db queue f freshId).body "confidence_score")
        = some c ∧ 0 ≤ c ∧ c ≤ 1) ∧
    containsKey (bodyObj (uploadProcessGet env db queue f freshId) "analysis_results")
      "analysis_details" = true ∧
    containsKey (subObj (uploadProcessGet env db queue f freshId)
      "analysis_results" "analysis_details") "font_consistency" = true ∧
    containsKey (subObj (uploadProcessGet env db queue f freshId)
      "analysis_results" "analysis_details") "pixel_analysis" = true ∧
    containsKey (subObj (uploadProcessGet env db queue f freshId)
      "analysis_results" "analysis_details") "compression_artifacts" = true := by
  have hdb1 : (DocumentVerificationView.post env db queue (some f) freshId).2.1
      = dbSet db freshId (pendingRow env f freshId) := rfl
  have hpath : (pendingRow env f freshId).file_path = env.save_file f := rfl
  have hws := worker_success env (dbSet db freshId (pendingRow env f freshId)) freshId
      (pendingRow env f freshId) img (dbSet_self _ _ _) (by rw [hpath]; exact himg) hload
  unfold uploadProcessGet
  rw [hdb1, hws]
  unfold DocumentVerificationView.get
  rw [dbSet_self]
  exact ⟨rfl, rfl,
    ⟨env.predict (ForgeryDetector.tensorOf env img), rfl,
      (hpred (ForgeryDetector.tensorOf env img)).1,
      (hpred (ForgeryDetector.tensorOf env img)).2⟩,
    rfl, rfl, rfl, rfl⟩

/-- C2 instantiated at the healthy world. -/
theorem C2_witness :
    (uploadProcessGet envW emptyDB [] fileW "a").status = 200 ∧
    getStr (lookupJ (uploadProcessGet envW emptyDB [] fileW "a").body "status")
      = some "completed" ∧
    (∃ c, getNum (lookupJ (uploadProcessGet envW emptyDB [] fileW "a").body "confidence_score")
        = some c ∧ 0 ≤ c ∧ c ≤ 1) ∧
    containsKey (bodyObj (uploadProcessGet envW emptyDB [] fileW "a") "analysis_results")
      "analysis_details" = true ∧
    containsKey (subObj (uploadProcessGet envW emptyDB [] fileW "a")
      "analysis_results" "analysis_details") "font_consistency" = true ∧
    containsKey (subObj (uploadProcessGet envW emptyDB [] fileW "a")
      "analysis_results" "analysis_details") "pixel_analysis" = true ∧
    containsKey (subObj (uploadProcessGet envW emptyDB [] fileW "a")
      "analysis_results" "analysis_details") "compression_artifacts" = true :=
  C2_completed_response envW emptyDB [] fileW "a" imgW rfl rfl
    (fun _ => ⟨(by decide : (0 : ℚ) ≤ score7), (by decide : score7 ≤ 1)⟩)
